import Mathlib

/-!
Shallow embedding of the core of `cloud-cli` (a CLI client for a
permissioned-blockchain network), translated from the Rust sources:

* `src/sdk/controller.rs` — the transaction signing pipeline
  (`sign_raw_tx`, `sign_raw_utxo`), the RPC hash-validation wrappers
  (`send_raw`, `get_block_hash`), and the `UtxoType` enumeration;
* `src/cmd.rs` — the generic command tree (`Command`), its builder
  (`subcommand`, `subcommands`) and dispatcher
  (`exec_with`, `dispatch_subcmd`);
* `src/cmd/evm.rs` — the `store-contract-abi` command handler;
* `src/main.rs` — the `bench` batch-send-and-track polling loop.

Byte strings are modelled as `List Nat`; Rust `Result` becomes `Except`;
the mutable `&mut Context` threaded through handlers becomes explicit
state passing (`Ctx → Except String Ctx`); async RPC calls become pure
functions of the pre-recorded responses, with an explicit trace of the
network calls issued where ordering matters.
-/

/-- Byte strings (`Vec<u8>` / `&[u8]`). -/
abbrev Bytes := List Nat

/-! ## Transaction data model (proto `blockchain`, as used by `controller.rs`)

The unsigned transaction bodies (`Transaction`, `UtxoTransaction`) are
protobuf messages whose fields the signing pipeline never inspects — it
only feeds them to the prost encoder.  They are therefore kept as type
parameters `Tx` / `Utxo`, and the canonical prost encoding is an explicit
function parameter `encode`. -/

/-- proto `Witness { sender, signature }`. -/
structure Witness where
  sender : Bytes
  signature : Bytes
deriving Repr, DecidableEq

/-- proto `UnverifiedTransaction { transaction, transaction_hash, witness }`. -/
structure UnverifiedTransaction (Tx : Type) where
  transaction : Option Tx
  transaction_hash : Bytes
  witness : Option Witness
deriving Repr

/-- proto `UnverifiedUtxoTransaction { transaction, transaction_hash, witnesses }`. -/
structure UnverifiedUtxoTransaction (Utxo : Type) where
  transaction : Option Utxo
  transaction_hash : Bytes
  witnesses : List Witness
deriving Repr

/-- proto `raw_transaction::Tx` — the tagged union inside `RawTransaction`. -/
inductive RawTxEnum (Tx Utxo : Type) where
  | NormalTx : UnverifiedTransaction Tx → RawTxEnum Tx Utxo
  | UtxoTx : UnverifiedUtxoTransaction Utxo → RawTxEnum Tx Utxo
deriving Repr

/-- proto `RawTransaction { tx: Option<Tx> }`. -/
structure RawTransaction (Tx Utxo : Type) where
  tx : Option (RawTxEnum Tx Utxo)
deriving Repr

/-- The `AccountBehaviour` capabilities that `SignerBehaviour` uses:
`self.address()` and `self.sign(msg)`, both fallible (`Result` in Rust). -/
structure Account where
  address : Except String Bytes
  sign : Bytes → Except String Bytes

/-! ## The signing pipeline (`SignerBehaviour` impl, controller.rs:187–253)

`C::hash` (the active crypto algorithm's hash) and the prost `encode`
of the unsigned body are passed as explicit functions. -/

/-- Rust `sign_raw_tx` (controller.rs:187–219): hash the prost encoding of the
unsigned body, sign the hash bytes, assemble a `NormalTx` raw transaction
carrying that hash and a single witness. -/
def sign_raw_tx {Tx Utxo : Type} (hash : Bytes → Bytes) (encode : Tx → Bytes)
    (acct : Account) (tx : Tx) : Except String (RawTransaction Tx Utxo) :=
  -- calc tx hash: build tx bytes (prost encode), then C::hash
  let tx_bytes := encode tx
  let tx_hash := hash tx_bytes
  -- sign tx hash (`self.address()?`, `self.sign(tx_hash.as_slice())?`)
  match acct.address with
  | .error e => .error e
  | .ok sender =>
      match acct.sign tx_hash with
      | .error e => .error e
      | .ok signature =>
          -- build raw tx
          let witness : Witness := { sender := sender, signature := signature }
          let unverified_tx : UnverifiedTransaction Tx :=
            { transaction := some tx
              transaction_hash := tx_hash
              witness := some witness }
          .ok { tx := some (RawTxEnum.NormalTx unverified_tx) }

/-- Rust `sign_raw_utxo` (controller.rs:221–253): same pipeline for the
UTXO-shaped body; the witness list is built as `vec![witness]`. -/
def sign_raw_utxo {Tx Utxo : Type} (hash : Bytes → Bytes) (encode : Utxo → Bytes)
    (acct : Account) (utxo : Utxo) : Except String (RawTransaction Tx Utxo) :=
  -- calc utxo hash: build utxo bytes (prost encode), then C::hash
  let utxo_bytes := encode utxo
  let utxo_hash := hash utxo_bytes
  -- sign utxo hash (`self.address()?`, `self.sign(utxo_hash.as_slice())?`)
  match acct.address with
  | .error e => .error e
  | .ok sender =>
      match acct.sign utxo_hash with
      | .error e => .error e
      | .ok signature =>
          -- build raw utxo (`witnesses: vec![witness]`)
          let witness : Witness := { sender := sender, signature := signature }
          let unverified_utxo : UnverifiedUtxoTransaction Utxo :=
            { transaction := some utxo
              transaction_hash := utxo_hash
              witnesses := [witness] }
          .ok { tx := some (RawTxEnum.UtxoTx unverified_utxo) }

/-! ## `UtxoType` (controller.rs:263–270) -/

/-- Rust `UtxoType` — system-transaction kinds with their `#[repr(u64)]`
protocol identifiers. -/
inductive UtxoType where
  | Admin
  | BlockInterval
  | Validators
  | EmergencyBrake
deriving Repr, DecidableEq

/-- The `#[repr(u64)]` discriminant values assigned in the source. -/
def UtxoType.toU64 : UtxoType → Nat
  | .Admin => 1002
  | .BlockInterval => 1003
  | .Validators => 1004
  | .EmergencyBrake => 1005

/-! ## Command tree and dispatcher (`src/cmd.rs`)

`Command` holds a clap `App` (of which the dispatcher uses only the name
and, for the builder, the list of registered sub-`App`s, which clap keeps
as an ordered list admitting duplicates), a handler function pointer
defaulting to `Self::dispatch_subcmd`, and a `HashMap<String, Command>`
of children.  The handler's `&Command` argument is dropped in the model
(no handler in the sources reads it); `&mut Context` becomes explicit
state threading; `anyhow::Result<()>` becomes `Except String Ctx`.

`ArgMatches` is used by the dispatcher only through `m.subcommand()`,
which yields the invoked child's name and its sub-matches (or nothing);
it is modelled as exactly that tree. -/

/-- clap `ArgMatches`, reduced to the `subcommand()` view the dispatcher
uses: either no subcommand was invoked, or one named child was, with its
own sub-matches. -/
inductive ArgMatches where
  | leaf : ArgMatches
  | invoked (name : String) (sub : ArgMatches) : ArgMatches
deriving Repr, DecidableEq

/-- Rust `ArgMatches::subcommand(&self) -> Option<(&str, &ArgMatches)>`. -/
def ArgMatches.subcommand : ArgMatches → Option (String × ArgMatches)
  | .leaf => none
  | .invoked name sub => some (name, sub)

/-- A command's handler: either the default `Self::dispatch_subcmd`, or a
custom function installed with `.handler(..)`. -/
inductive HandlerSpec (Ctx : Type) where
  | dflt : HandlerSpec Ctx
  | custom (f : ArgMatches → Ctx → Except String Ctx) : HandlerSpec Ctx

/-- Rust `Command { app, handler, subcmds }`.  Of the clap `App` only the name
and the ordered list of registered subcommand names (duplicates kept, as
clap does) are modelled. -/
inductive Command (Ctx : Type) where
  | mk (name : String) (appSubNames : List String) (handler : HandlerSpec Ctx)
      (subcmds : List (String × Command Ctx)) : Command Ctx

/-- Rust `Command::get_name`. -/
def Command.get_name {Ctx : Type} : Command Ctx → String
  | .mk name _ _ _ => name

/-- The child map of a `Command`. -/
def Command.subcmds {Ctx : Type} : Command Ctx → List (String × Command Ctx)
  | .mk _ _ _ subs => subs

/-- The registered grammar subcommand names of a `Command`'s clap `App`. -/
def Command.appSubNames {Ctx : Type} : Command Ctx → List String
  | .mk _ names _ _ => names

/-- The handler of a `Command`. -/
def Command.handlerOf {Ctx : Type} : Command Ctx → HandlerSpec Ctx
  | .mk _ _ h _ => h

/-- Rust `HashMap::insert` as a function on the association list representing
the map: an existing binding of the key is replaced (the map "silently
keeps the last insertion"), a new key is added. -/
def mapInsert {α : Type} (k : String) (v : α) : List (String × α) → List (String × α)
  | [] => [(k, v)]
  | (k2, v2) :: rest =>
      if k2 = k then (k, v) :: rest else (k2, v2) :: mapInsert k v rest

/-- Rust `HashMap::get`. -/
def mapGet {α : Type} (k : String) : List (String × α) → Option α
  | [] => none
  | (k2, v) :: rest => if k2 = k then some v else mapGet k rest

/-- Rust `Command::new(name)` (cmd.rs:49–55): fresh app, default handler
(`Self::dispatch_subcmd`), empty child map. -/
def Command.new {Ctx : Type} (name : String) : Command Ctx :=
  .mk name [] .dflt []

/-- Rust `Command::handler` (cmd.rs:88–91). -/
def Command.handler {Ctx : Type} (c : Command Ctx)
    (h : ArgMatches → Ctx → Except String Ctx) : Command Ctx :=
  match c with
  | .mk name apps _ subs => .mk name apps (.custom h) subs

/-- Rust `Command::subcommand` (cmd.rs:94–101): register the child's `App`
into the clap grammar and insert the child into the `subcmds` map, keyed
by its name.  The function is total — there is no failure path. -/
def Command.subcommand {Ctx : Type} (c : Command Ctx) (subcmd : Command Ctx) :
    Command Ctx :=
  match c with
  | .mk name apps h subs =>
      .mk name (apps ++ [subcmd.get_name]) h
        (mapInsert subcmd.get_name subcmd subs)

/-- Rust `Command::subcommands` (cmd.rs:106–114): fold `subcommand` over the
iterator ("just a fancy loop!"). -/
def Command.subcommands {Ctx : Type} (c : Command Ctx)
    (subcmdList : List (Command Ctx)) : Command Ctx :=
  subcmdList.foldl (fun this subcmd => this.subcommand subcmd) c

/-- Rust `Command::exec_with` (cmd.rs:122–128): `(self.handler)(self, m, ctx)`.
The default handler is `dispatch_subcmd` (cmd.rs:139–153): if the matches
name an invoked child, look it up in `subcmds`; run it on the
sub-matches if found, otherwise
`bail!("no subcommand handler for `{}`", subcmd_name)`; if no child is
invoked, return `Ok(())`. -/
def Command.exec_with {Ctx : Type} (c : Command Ctx) (m : ArgMatches) (ctx : Ctx) :
    Except String Ctx :=
  match c with
  | .mk _ _ (.custom f) _ => f m ctx
  | .mk _ _ .dflt subs =>
      match m with
      | .leaf => Except.ok ctx
      | .invoked name subm =>
          match mapGet name subs with
          | some subcmd => subcmd.exec_with subm ctx
          | none =>
              Except.error ("no subcommand handler for `" ++ name ++ "`")

/-- Rust `Command::dispatch_subcmd` (cmd.rs:139–153), as a standalone
function: the body of the default handler. -/
def Command.dispatch_subcmd {Ctx : Type} (c : Command Ctx) (m : ArgMatches)
    (ctx : Ctx) : Except String Ctx :=
  match m.subcommand with
  | some (name, subm) =>
      match mapGet name c.subcmds with
      | some subcmd => subcmd.exec_with subm ctx
      | none => Except.error ("no subcommand handler for `" ++ name ++ "`")
  | none => Except.ok ctx

/-! ## RPC hash validation (`send_raw`, `get_block_hash`, controller.rs:58–90)

`anyhow::Error` is modelled as a root message plus the stack of
`.context(..)` messages wrapped around it (outermost first).  A transport
failure (the `?` on the tonic call) propagates with no context attached;
the hash-length failure is a `try_from_slice` error with the
algorithm-mismatch hint attached via `.context(..)`. -/

/-- Rust `anyhow::Error`: root cause plus context chain, outermost first. -/
structure AnyhowError where
  contextChain : List String
  root : String
deriving Repr, DecidableEq

/-- Modelled from the spec: `ArrayLike::try_from_slice` of the crypto
module (`src/crypto.rs`, not under `src/`): "Construction of
`Hash`/`Address`/`Signature` from raw bytes must reject inputs whose
length does not match the algorithm's fixed size" (§4.2); on the correct
length it succeeds and round-trips to the same bytes (§8). -/
def try_from_slice (len : Nat) (s : Bytes) : Except String Bytes :=
  if s.length = len then Except.ok s else Except.error "invalid length"

/-- Rust `ControllerBehaviour::send_raw` (controller.rs:58–63).  `hashLen` is
the active algorithm's `C::Hash` size; `transportResp` is the outcome of
the tonic `send_raw_transaction` exchange (`Err` = transport failure,
`Ok bytes` = the hash field of the well-formed response). -/
def send_raw (hashLen : Nat) (transportResp : Except String Bytes) :
    Except AnyhowError Bytes :=
  match transportResp with
  | .error e => .error { contextChain := [], root := e }
  | .ok respHash =>
      match try_from_slice hashLen respHash with
      | .ok h => .ok h
      | .error e =>
          .error
            { contextChain :=
                ["controller returns an invalid transaction hash, maybe we are using a wrong signing algorithm?"]
              root := e }

/-- Rust `ControllerBehaviour::get_block_hash` (controller.rs:82–90); same
shape as `send_raw` with its own context message. -/
def get_block_hash (hashLen : Nat) (transportResp : Except String Bytes) :
    Except AnyhowError Bytes :=
  match transportResp with
  | .error e => .error { contextChain := [], root := e }
  | .ok respHash =>
      match try_from_slice hashLen respHash with
      | .ok h => .ok h
      | .error e =>
          .error
            { contextChain :=
                ["controller returns an invalid block hash, maybe we are using a different signing algorithm?"]
              root := e }

/-! ## The `bench` batch-send-and-track loop (`src/main.rs:144–216`)

After the submission tasks are joined, the loop is:

```
while finalized_tx < tx_count {
    tick; n = get_block_number();
    if n < start_at { continue; }
    fetch blocks start_at..=n, add their tx counts to finalized_tx;
    start_at = n + 1;
}
```

The chain is modelled as the pre-recorded responses: `height i` is what
`get_block_number` returns on the `i`-th poll, `blockTxs h` the number
of `tx_hashes` in the body of the block at height `h`.  The state keeps,
besides the watermark `start_at` and the accumulator `finalized_tx`, the
number of polls made and the list of heights fetched with
`get_block_by_number`, in order, so the claims about polling and
fetching are statable.  The possibly-unbounded `while` is embedded with
fuel: `none` means the loop is still running after `fuel` iterations. -/

/-- The pre-recorded chain responses seen by the bench loop. -/
structure BenchChain where
  height : Nat → Nat
  blockTxs : Nat → Nat

/-- The bench loop's state. -/
structure BenchState where
  start_at : Nat
  finalized_tx : Nat
  polls : Nat
  fetched : List Nat
deriving Repr, DecidableEq

/-- One iteration of the bench `while` body: poll the current height;
if it has not reached the watermark, `continue`; otherwise fetch every
block from the watermark up to it, accumulate the observed transaction
counts, and move the watermark past the fetched heights. -/
def benchIter (chain : BenchChain) (s : BenchState) : BenchState :=
  let n := chain.height s.polls
  if s.start_at ≤ n then
    let heights := List.range' s.start_at (n + 1 - s.start_at)
    { start_at := n + 1
      finalized_tx := s.finalized_tx + (heights.map chain.blockTxs).sum
      polls := s.polls + 1
      fetched := s.fetched ++ heights }
  else
    { s with polls := s.polls + 1 }

/-- The bench `while finalized_tx < tx_count` loop, with fuel. -/
def benchLoop (chain : BenchChain) (tx_count : Nat) :
    Nat → BenchState → Option BenchState
  | 0, _ => none
  | fuel + 1, s =>
      if s.finalized_tx < tx_count then
        benchLoop chain tx_count fuel (benchIter chain s)
      else
        some s

/-- The state the bench loop starts from: watermark at the block height
recorded before submission, nothing finalized, no polls, nothing
fetched. -/
def benchInit (start_at : Nat) : BenchState :=
  { start_at := start_at, finalized_tx := 0, polls := 0, fetched := [] }

/-! ## The `store-contract-abi` handler (`src/cmd/evm.rs:111–171`)

Rust `&str` argument values are modelled as `List Char` so the
character-level operations (`strip_prefix('+')`, `starts_with('+')`,
`str::parse::<u64>`) compute in the kernel.  The handler's network
activity is made explicit: it returns, next to its `Result`, the ordered
trace of RPC calls it issued.  `parse_addr` lives in `src/utils.rs`
(not under `src/`) and is passed as an opaque function parameter — the
handler never inspects the parsed address.  The terminal
`EvmBehaviourExt::store_contract_abi` RPC (also outside `src/`) is
modelled as one opaque network call answering with the pre-recorded
`storeAbiResp`. -/

/-- A Rust `&str` argument value, character by character. -/
abbrev RStr := List Char

/-- The network calls the `store-contract-abi` handler can issue, in
trace order. -/
inductive NetCall where
  | getBlockNumber : NetCall
  | storeContractAbi : NetCall
deriving Repr, DecidableEq

/-- Rust `s.starts_with('+')`. -/
def startsWithPlus : RStr → Bool
  | '+' :: _ => true
  | _ => false

/-- Rust `s.strip_prefix('+').unwrap_or(s)`. -/
def stripPlus (s : RStr) : RStr :=
  match s with
  | '+' :: rest => rest
  | _ => s

/-- Rust `str::parse::<u64>`: an optional leading `+` sign, then one or more
decimal digits (overflow is out of the modelled range). -/
def parse_u64 (s : RStr) : Except String Nat :=
  let digits := match s with
    | '+' :: rest => rest
    | _ => s
  if digits ≠ [] ∧ digits.all Char.isDigit then
    Except.ok (digits.foldl (fun acc c => acc * 10 + (c.toNat - 48)) 0)
  else
    Except.error "invalid digit found in string"

/-- The slice of `Context` the `store-contract-abi` handler touches:
the controller client (as the pre-recorded responses of the two RPCs the
handler can issue) and the current account. -/
structure EvmCtx where
  blockNumberResp : Except String Nat
  current_account : Option Account
  storeAbiResp : Except String Bytes

/-- Modelled from the spec: `Context::current_account`
(`src/core/context.rs`, not under `src/`): "Signing fails (signing
error) if no current Account is set in Context" (§4.3). -/
def EvmCtx.currentAccountOrErr (ctx : EvmCtx) : Except String Account :=
  match ctx.current_account with
  | some a => Except.ok a
  | none => Except.error "signing error: no current account is set"

/-- The `store-contract-abi` handler body (evm.rs:141–170), with its RPC
trace.  Source order: parse the contract address, read the ABI string,
parse the quota, resolve `valid-until-block` (issuing
`get_block_number` first when the value has a `+` prefix — the default
is `+95`), only then take `ctx.current_account()?`, and finally issue
the `store_contract_abi` RPC. -/
def store_contract_abi_handler
    (parse_addr : RStr → Except String Bytes)
    (addr abi quota validUntilArg : RStr) (ctx : EvmCtx) :
    List NetCall × Except String Bytes :=
  match parse_addr addr with
  | .error e => ([], .error e)
  | .ok _contract_addr =>
      let _abi := abi
      match parse_u64 quota with
      | .error e => ([], .error e)
      | .ok _quota =>
          match parse_u64 (stripPlus validUntilArg) with
          | .error e => ([], .error e)
          | .ok v =>
              if startsWithPlus validUntilArg then
                match ctx.blockNumberResp with
                | .error e => ([NetCall.getBlockNumber], .error e)
                | .ok h =>
                    let _valid_until_block := h + v
                    match ctx.currentAccountOrErr with
                    | .error e => ([NetCall.getBlockNumber], .error e)
                    | .ok _signer =>
                        ([NetCall.getBlockNumber, NetCall.storeContractAbi],
                          ctx.storeAbiResp)
              else
                let _valid_until_block := v
                match ctx.currentAccountOrErr with
                | .error e => ([], .error e)
                | .ok _signer => ([NetCall.storeContractAbi], ctx.storeAbiResp)

/-! # Theorems -/

/-- C10: `UtxoType` maps administrator-account change to 1002,
block-interval change to 1003, validator-set change to 1004, and
emergency-brake toggle to 1005. -/
theorem utxo_type_protocol_identifiers :
    UtxoType.toU64 .Admin = 1002 ∧ UtxoType.toU64 .BlockInterval = 1003 ∧
    UtxoType.toU64 .Validators = 1004 ∧ UtxoType.toU64 .EmergencyBrake = 1005 :=
  ⟨rfl, rfl, rfl, rfl⟩

/-- C1: for every unsigned normal body and unsigned UTXO body and every
account, `sign_raw_tx` / `sign_raw_utxo` hash the canonical encoding of
the unsigned body, sign those hash bytes, and assemble a
`RawTransaction` whose `transaction_hash` is that same hash, with a
witness whose sender is the account's address and whose signature is
the one produced over the hash — so the signed hash is the hash of the
encoded unsigned body, never of the assembled transaction. -/
theorem sign_pipeline_hashes_unsigned_body {Tx Utxo : Type}
    (hash : Bytes → Bytes) (encTx : Tx → Bytes) (encUtxo : Utxo → Bytes)
    (acct : Account) (tx : Tx) (utxo : Utxo)
    (rawTx rawUtxo : RawTransaction Tx Utxo)
    (hTx : sign_raw_tx hash encTx acct tx = Except.ok rawTx)
    (hUtxo : sign_raw_utxo hash encUtxo acct utxo = Except.ok rawUtxo) :
    ∃ addr sigTx sigUtxo,
      acct.address = Except.ok addr ∧
      acct.sign (hash (encTx tx)) = Except.ok sigTx ∧
      acct.sign (hash (encUtxo utxo)) = Except.ok sigUtxo ∧
      rawTx.tx = some (RawTxEnum.NormalTx
        { transaction := some tx
          transaction_hash := hash (encTx tx)
          witness := some { sender := addr, signature := sigTx } }) ∧
      rawUtxo.tx = some (RawTxEnum.UtxoTx
        { transaction := some utxo
          transaction_hash := hash (encUtxo utxo)
          witnesses := [{ sender := addr, signature := sigUtxo }] }) := by
  unfold sign_raw_tx at hTx
  unfold sign_raw_utxo at hUtxo
  cases ha : acct.address with
  | error e => rw [ha] at hTx; exact absurd hTx (by simp)
  | ok addr =>
      rw [ha] at hTx hUtxo
      cases hsT : acct.sign (hash (encTx tx)) with
      | error e => simp only [hsT] at hTx; exact absurd hTx (by simp)
      | ok sigTx =>
          simp only [hsT] at hTx
          cases hsU : acct.sign (hash (encUtxo utxo)) with
          | error e => simp only [hsU] at hUtxo; exact absurd hUtxo (by simp)
          | ok sigUtxo =>
              simp only [hsU] at hUtxo
              cases hTx
              cases hUtxo
              exact ⟨addr, sigTx, sigUtxo, rfl, rfl, rfl, rfl, rfl⟩

/-- Witness for C1 at a concrete crypto, account and pair of bodies. -/
theorem sign_pipeline_hashes_unsigned_body_witness :
    ∃ addr sigTx sigUtxo,
      (Account.mk (Except.ok [7]) (fun h => Except.ok (99 :: h))).address
        = Except.ok addr ∧
      (Account.mk (Except.ok [7]) (fun h => Except.ok (99 :: h))).sign
        ((fun b => [b.length]) (id [1, 2])) = Except.ok sigTx ∧
      (Account.mk (Except.ok [7]) (fun h => Except.ok (99 :: h))).sign
        ((fun b => [b.length]) (id [3])) = Except.ok sigUtxo ∧
      (@RawTransaction.mk Bytes Bytes
          (some (RawTxEnum.NormalTx
            { transaction := some [1, 2]
              transaction_hash := [2]
              witness := some { sender := [7], signature := [99, 2] } }))).tx
        = some (RawTxEnum.NormalTx
            { transaction := some [1, 2]
              transaction_hash := (fun b => [b.length]) (id [1, 2])
              witness := some { sender := addr, signature := sigTx } }) ∧
      (@RawTransaction.mk Bytes Bytes
          (some (RawTxEnum.UtxoTx
            { transaction := some [3]
              transaction_hash := [1]
              witnesses := [{ sender := [7], signature := [99, 1] }] }))).tx
        = some (RawTxEnum.UtxoTx
            { transaction := some [3]
              transaction_hash := (fun b => [b.length]) (id [3])
              witnesses := [{ sender := addr, signature := sigUtxo }] }) :=
  sign_pipeline_hashes_unsigned_body (fun b => [b.length]) id id
    (Account.mk (Except.ok [7]) (fun h => Except.ok (99 :: h))) [1, 2] [3]
    _ _ rfl rfl

/-- C6: a successful `sign_raw_tx` yields a `NormalTx` with exactly one
witness (its optional witness field is populated), and a successful
`sign_raw_utxo` yields a `UtxoTx` whose witness sequence has length
exactly one at creation. -/
theorem sign_exactly_one_witness {Tx Utxo : Type}
    (hash : Bytes → Bytes) (encTx : Tx → Bytes) (encUtxo : Utxo → Bytes)
    (acct : Account) (tx : Tx) (utxo : Utxo)
    (rawTx rawUtxo : RawTransaction Tx Utxo)
    (hTx : sign_raw_tx hash encTx acct tx = Except.ok rawTx)
    (hUtxo : sign_raw_utxo hash encUtxo acct utxo = Except.ok rawUtxo) :
    (∃ u, rawTx.tx = some (RawTxEnum.NormalTx u) ∧ ∃ w, u.witness = some w) ∧
    (∃ u, rawUtxo.tx = some (RawTxEnum.UtxoTx u) ∧ u.witnesses.length = 1) := by
  unfold sign_raw_tx at hTx
  unfold sign_raw_utxo at hUtxo
  cases ha : acct.address with
  | error e =>
      rw [ha] at hTx
      exact absurd hTx (by simp)
  | ok addr =>
      rw [ha] at hTx hUtxo
      cases hsT : acct.sign (hash (encTx tx)) with
      | error e => simp only [hsT] at hTx; exact absurd hTx (by simp)
      | ok sigTx =>
          simp only [hsT] at hTx
          cases hsU : acct.sign (hash (encUtxo utxo)) with
          | error e => simp only [hsU] at hUtxo; exact absurd hUtxo (by simp)
          | ok sigUtxo =>
              simp only [hsU] at hUtxo
              cases hTx
              cases hUtxo
              exact ⟨⟨_, rfl, _, rfl⟩, ⟨_, rfl, rfl⟩⟩

/-- Witness for C6 at a concrete crypto, account and pair of bodies. -/
theorem sign_exactly_one_witness_witness :
    (∃ u, (@RawTransaction.mk Bytes Bytes
        (some (RawTxEnum.NormalTx
          { transaction := some [1, 2]
            transaction_hash := [2]
            witness := some { sender := [7], signature := [99, 2] } }))).tx
      = some (RawTxEnum.NormalTx u) ∧ ∃ w, u.witness = some w) ∧
    (∃ u, (@RawTransaction.mk Bytes Bytes
        (some (RawTxEnum.UtxoTx
          { transaction := some [3]
            transaction_hash := [1]
            witnesses := [{ sender := [7], signature := [99, 1] }] }))).tx
      = some (RawTxEnum.UtxoTx u) ∧ u.witnesses.length = 1) :=
  sign_exactly_one_witness (fun b => [b.length]) id id
    (Account.mk (Except.ok [7]) (fun h => Except.ok (99 :: h))) [1, 2] [3]
    _ _ rfl rfl

/-! ### Map lemmas for the `subcmds` association list -/

/-- Inserting at a key makes the map yield the new value at that key. -/
theorem mapGet_mapInsert_self {α : Type} (k : String) (v : α)
    (l : List (String × α)) : mapGet k (mapInsert k v l) = some v := by
  induction l with
  | nil => simp [mapInsert, mapGet]
  | cons hd tl ih =>
      obtain ⟨k2, v2⟩ := hd
      by_cases h : k2 = k
      · simp [mapInsert, mapGet, h]
      · simp [mapInsert, mapGet, h, ih]

/-- Inserting at a key leaves every other key's binding unchanged. -/
theorem mapGet_mapInsert_ne {α : Type} (k k' : String) (v : α)
    (l : List (String × α)) (h : k' ≠ k) :
    mapGet k' (mapInsert k v l) = mapGet k' l := by
  induction l with
  | nil => simp [mapInsert, mapGet, h, Ne.symm h]
  | cons hd tl ih =>
      obtain ⟨k2, v2⟩ := hd
      by_cases h2 : k2 = k
      · subst h2
        simp [mapInsert, mapGet, Ne.symm h]
      · by_cases h3 : k2 = k'
        · simp [mapInsert, mapGet, h2, h3, h]
        · simp [mapInsert, mapGet, h2, h3, h, ih]

/-- Inserting at an already-bound key does not grow the map. -/
theorem length_mapInsert_of_get_some {α : Type} (k : String) (v w : α)
    (l : List (String × α)) (h : mapGet k l = some w) :
    (mapInsert k v l).length = l.length := by
  induction l with
  | nil => simp [mapGet] at h
  | cons hd tl ih =>
      obtain ⟨k2, v2⟩ := hd
      by_cases h2 : k2 = k
      · simp [mapInsert, h2]
      · simp only [mapGet, if_neg h2] at h
        simp [mapInsert, h2, ih h]

/-! ### Sample commands used by concrete counterexamples and witnesses -/

/-- A first child named `a`. -/
def sampleChildA : Command Unit := Command.new "a"

/-- A second, distinguishable child also named `a` (its clap grammar
carries a marker entry). -/
def sampleChildA2 : Command Unit := Command.mk "a" ["marker"] .dflt []

/-- A parent that has already registered `sampleChildA` under `a`. -/
def sampleParent : Command Unit :=
  Command.mk "parent" ["a"] .dflt [("a", sampleChildA)]

/-- C2 counterexample: registering a second child named `a` on a node
that already has a child `a` does NOT fail — `Command.subcommand` is
total, with no error channel — it returns normally, the child map
silently keeping only the last insertion (the first child is gone) while
the clap grammar list keeps both entries. -/
theorem duplicate_subcommand_not_rejected :
    (sampleParent.subcommand sampleChildA2).subcmds = [("a", sampleChildA2)] ∧
    mapGet "a" (sampleParent.subcommand sampleChildA2).subcmds
      = some sampleChildA2 ∧
    (sampleParent.subcommand sampleChildA2).appSubNames = ["a", "a"] :=
  ⟨rfl, rfl, rfl⟩

/-- C2 (amended): registering a subcommand whose name equals the name of
an already-registered child is silently tolerated, not rejected: the
registration returns normally, the child map keeps the last insertion at
that name (without growing), every other name's binding is unchanged,
and the duplicate name is appended to the clap grammar list. -/
theorem subcommand_duplicate_silently_overwrites {Ctx : Type}
    (c sub old : Command Ctx)
    (h : mapGet sub.get_name c.subcmds = some old) :
    mapGet sub.get_name (c.subcommand sub).subcmds = some sub ∧
    (c.subcommand sub).subcmds.length = c.subcmds.length ∧
    (∀ k, k ≠ sub.get_name →
        mapGet k (c.subcommand sub).subcmds = mapGet k c.subcmds) ∧
    (c.subcommand sub).appSubNames = c.appSubNames ++ [sub.get_name] := by
  obtain ⟨name, apps, hd, subs⟩ := c
  refine ⟨?_, ?_, ?_, rfl⟩
  · exact mapGet_mapInsert_self _ _ _
  · exact length_mapInsert_of_get_some _ _ _ _ h
  · intro k hk
    exact mapGet_mapInsert_ne _ _ _ _ hk

/-- Witness for the amended C2 at the concrete duplicate registration. -/
theorem subcommand_duplicate_silently_overwrites_witness :
    mapGet "a" (sampleParent.subcommand sampleChildA2).subcmds
      = some sampleChildA2 ∧
    (sampleParent.subcommand sampleChildA2).subcmds.length = 1 ∧
    mapGet "b" (sampleParent.subcommand sampleChildA2).subcmds
      = mapGet "b" sampleParent.subcmds ∧
    (sampleParent.subcommand sampleChildA2).appSubNames = ["a", "a"] := by
  have t := subcommand_duplicate_silently_overwrites sampleParent
    sampleChildA2 sampleChildA rfl
  exact ⟨t.1, t.2.1, t.2.2.1 "b" (by decide), t.2.2.2⟩

/-! ### Dispatcher lemmas -/

/-- The default handler installed by `Command::new` is exactly
`dispatch_subcmd`: executing a node whose handler is the default is the
same as dispatching on its child map. -/
theorem exec_with_dflt_eq_dispatch_subcmd {Ctx : Type} (c : Command Ctx)
    (m : ArgMatches) (ctx : Ctx) (hH : c.handlerOf = .dflt) :
    c.exec_with m ctx = c.dispatch_subcmd m ctx := by
  obtain ⟨name, apps, hd, subs⟩ := c
  simp only [Command.handlerOf] at hH
  subst hH
  cases m with
  | leaf => rfl
  | invoked n subm => rfl

/-- C4 counterexample: a child command whose handler fails with `zz`
propagates exactly `zz` to the caller — the dispatcher adds no context,
in particular not the offending command's name (`child`): no character
of the name even occurs in the propagated error. -/
theorem dispatch_error_not_wrapped :
    (Command.mk "root" ["child"] .dflt
        [("child",
          Command.mk "child" [] (.custom fun _ _ => Except.error "zz") [])]).exec_with
      (.invoked "child" .leaf) (0 : Nat) = Except.error "zz" ∧
    ¬ ("child".toList <:+: "zz".toList) :=
  ⟨rfl, by decide⟩

/-- C4 (amended): for a default-handler node, dispatching an invoked
child is exactly the matched child's execution — so a handler failure is
propagated to the caller unchanged (no command-name context is added),
and nothing besides the matched child (no sibling, no other child) runs
after the failure. -/
theorem dispatch_propagates_handler_error {Ctx : Type}
    (c : Command Ctx) (name : String) (subm : ArgMatches) (ctx : Ctx)
    (subcmd : Command Ctx) (e : String)
    (hH : c.handlerOf = .dflt)
    (hL : mapGet name c.subcmds = some subcmd)
    (hF : subcmd.exec_with subm ctx = Except.error e) :
    c.exec_with (.invoked name subm) ctx = subcmd.exec_with subm ctx ∧
    c.exec_with (.invoked name subm) ctx = Except.error e := by
  obtain ⟨n, apps, hd, subs⟩ := c
  simp only [Command.handlerOf] at hH
  subst hH
  simp only [Command.subcmds] at hL
  constructor
  · simp only [Command.exec_with, hL]
  · simp only [Command.exec_with, hL, hF]

/-- Witness for the amended C4: the failing `child` handler's error
comes back verbatim through the dispatcher at a concrete tree that also
has a sibling. -/
theorem dispatch_propagates_handler_error_witness :
    (Command.mk "root" ["child", "sibling"] .dflt
        [("child",
          Command.mk "child" [] (.custom fun _ _ => Except.error "zz") []),
         ("sibling",
          Command.mk "sibling" [] (.custom fun _ n => Except.ok (n + 1)) [])]).exec_with
      (.invoked "child" .leaf) (0 : Nat) = Except.error "zz" :=
  (dispatch_propagates_handler_error
    (Command.mk "root" ["child", "sibling"] .dflt
      [("child",
        Command.mk "child" [] (.custom fun _ _ => Except.error "zz") []),
       ("sibling",
        Command.mk "sibling" [] (.custom fun _ n => Except.ok (n + 1)) [])])
    "child" .leaf 0
    (Command.mk "child" [] (.custom fun _ _ => Except.error "zz") [])
    "zz" rfl rfl rfl).2

/-- C5: executing a node whose handler is the default dispatcher: if the
parsed arguments name an invoked child that is absent from the node's
child map, execution fails with the dispatch error
`no subcommand handler for ...`; if the parsed arguments name no
invoked child, execution is a no-op returning success with the context
unchanged. -/
theorem dispatch_default_cases {Ctx : Type} (c : Command Ctx) (ctx : Ctx)
    (hH : c.handlerOf = .dflt) :
    (∀ name subm, mapGet name c.subcmds = none →
        c.exec_with (.invoked name subm) ctx =
          Except.error ("no subcommand handler for `" ++ name ++ "`")) ∧
    c.exec_with .leaf ctx = Except.ok ctx := by
  obtain ⟨n, apps, hd, subs⟩ := c
  simp only [Command.handlerOf] at hH
  subst hH
  constructor
  · intro name subm hnone
    simp only [Command.subcmds] at hnone
    simp only [Command.exec_with, hnone]
  · rfl

/-- Witness for C5: a fresh node (default handler, no children) errors
on an invoked child named `nope` and is a success no-op on empty
matches. -/
theorem dispatch_default_cases_witness :
    (@Command.new Nat "root").exec_with (.invoked "nope" .leaf) 0 =
      Except.error ("no subcommand handler for `" ++ "nope" ++ "`") ∧
    (@Command.new Nat "root").exec_with .leaf 0 = Except.ok 0 :=
  ⟨(dispatch_default_cases (Command.new "root") 0 rfl).1 "nope" .leaf rfl,
    (dispatch_default_cases (Command.new "root") 0 rfl).2⟩

/-- C7: for a successful transport exchange, `send_raw` and
`get_block_hash` return the hash when its byte length matches the active
algorithm's fixed hash size, and otherwise fail with a
protocol-mismatch error whose context message suggests a
signing-algorithm mismatch; that failure carries a context chain,
whereas a transport-level failure propagates with an empty context
chain — a distinct failure shape. -/
theorem rpc_hash_length_validation (hashLen : Nat) (respHash : Bytes)
    (e : String) :
    (respHash.length = hashLen →
        send_raw hashLen (Except.ok respHash) = Except.ok respHash ∧
        get_block_hash hashLen (Except.ok respHash) = Except.ok respHash) ∧
    (respHash.length ≠ hashLen →
        send_raw hashLen (Except.ok respHash) =
          Except.error
            { contextChain :=
                ["controller returns an invalid transaction hash, maybe we are using a wrong signing algorithm?"]
              root := "invalid length" } ∧
        get_block_hash hashLen (Except.ok respHash) =
          Except.error
            { contextChain :=
                ["controller returns an invalid block hash, maybe we are using a different signing algorithm?"]
              root := "invalid length" }) ∧
    send_raw hashLen (Except.error e) =
      Except.error { contextChain := [], root := e } ∧
    get_block_hash hashLen (Except.error e) =
      Except.error { contextChain := [], root := e } := by
  refine ⟨fun h => ?_, fun h => ?_, rfl, rfl⟩
  · constructor <;> simp [send_raw, get_block_hash, try_from_slice, h]
  · constructor <;> simp [send_raw, get_block_hash, try_from_slice, h]

/-- Witness for C7 with a 2-byte hash size: a matching-length response
round-trips, a 3-byte response yields the context-wrapped mismatch
error, a transport failure propagates context-free. -/
theorem rpc_hash_length_validation_witness :
    send_raw 2 (Except.ok [1, 2]) = Except.ok [1, 2] ∧
    send_raw 2 (Except.ok [1, 2, 3]) =
      Except.error
        { contextChain :=
            ["controller returns an invalid transaction hash, maybe we are using a wrong signing algorithm?"]
          root := "invalid length" } ∧
    get_block_hash 2 (Except.error "connection refused") =
      Except.error { contextChain := [], root := "connection refused" } :=
  ⟨((rpc_hash_length_validation 2 [1, 2] "connection refused").1 (by decide)).1,
    ((rpc_hash_length_validation 2 [1, 2, 3] "connection refused").2.1
      (by decide)).1,
    (rpc_hash_length_validation 2 [1, 2] "connection refused").2.2.2⟩

/-- C8: the bench loop runs exactly while the cumulative number of
observed transactions is below the requested count: any state it
returns satisfies `tx_count ≤ finalized_tx`; a state already at or
above the count is returned immediately, unchanged; and for a requested
count of 0 the loop completes at once from the initial state — 0
finalized and no polling iterations performed. -/
theorem bench_terminates_at_threshold :
    (∀ chain tx_count fuel s s',
        benchLoop chain tx_count fuel s = some s' →
        tx_count ≤ s'.finalized_tx) ∧
    (∀ chain tx_count fuel (s : BenchState), tx_count ≤ s.finalized_tx →
        benchLoop chain tx_count (fuel + 1) s = some s) ∧
    (∀ chain fuel h0,
        benchLoop chain 0 (fuel + 1) (benchInit h0) = some (benchInit h0)) := by
  refine ⟨?_, ?_, ?_⟩
  · intro chain tx_count fuel
    induction fuel with
    | zero => intro s s' h; simp [benchLoop] at h
    | succ n ih =>
        intro s s' h
        simp only [benchLoop] at h
        by_cases hc : s.finalized_tx < tx_count
        · rw [if_pos hc] at h
          exact ih _ _ h
        · rw [if_neg hc] at h
          cases h
          omega
  · intro chain tx_count fuel s h
    simp [benchLoop, Nat.not_lt.mpr h]
  · intro chain fuel h0
    simp [benchLoop, benchInit]

/-- Witness for C8: a 0-count run completes immediately from the
initial state; a state with 4 observed transactions exits a 3-count
loop unchanged; and a finished loop's state is at or above the
requested count. -/
theorem bench_terminates_at_threshold_witness :
    benchLoop ⟨fun _ => 0, fun _ => 0⟩ 0 1 (benchInit 5) =
      some (benchInit 5) ∧
    benchLoop ⟨fun _ => 0, fun _ => 0⟩ 3 1
        { start_at := 5, finalized_tx := 4, polls := 2, fetched := [3, 4] } =
      some { start_at := 5, finalized_tx := 4, polls := 2, fetched := [3, 4] } ∧
    2 ≤ (BenchState.mk 5 4 2 [3, 4]).finalized_tx :=
  ⟨bench_terminates_at_threshold.2.2 ⟨fun _ => 0, fun _ => 0⟩ 0 5,
    bench_terminates_at_threshold.2.1 ⟨fun _ => 0, fun _ => 0⟩ 3 0
      (BenchState.mk 5 4 2 [3, 4]) (by decide),
    bench_terminates_at_threshold.1 ⟨fun _ => 0, fun _ => 0⟩ 2 1
      (BenchState.mk 5 4 2 [3, 4]) (BenchState.mk 5 4 2 [3, 4]) rfl⟩

/-- Lemma: `benchIter` preserves the watermark/fetch invariant: starting from a
state whose fetched list is exactly the consecutive heights from `h0`
up to (excluding) the watermark, one iteration leaves it so. -/
theorem benchIter_fetch_invariant (chain : BenchChain) (h0 : Nat)
    (s : BenchState) (h1 : h0 ≤ s.start_at)
    (h2 : s.fetched = List.range' h0 (s.start_at - h0)) :
    h0 ≤ (benchIter chain s).start_at ∧
    (benchIter chain s).fetched =
      List.range' h0 ((benchIter chain s).start_at - h0) := by
  by_cases hn : s.start_at ≤ chain.height s.polls
  · simp only [benchIter, if_pos hn]
    refine ⟨by omega, ?_⟩
    have e1 : h0 + (s.start_at - h0) = s.start_at := by omega
    have e2 : chain.height s.polls + 1 - s.start_at + (s.start_at - h0) =
        chain.height s.polls + 1 - h0 := by omega
    calc s.fetched ++
          List.range' s.start_at (chain.height s.polls + 1 - s.start_at)
        = List.range' h0 (s.start_at - h0) ++
            List.range' (h0 + (s.start_at - h0))
              (chain.height s.polls + 1 - s.start_at) := by rw [h2, e1]
      _ = List.range' h0
            (chain.height s.polls + 1 - s.start_at + (s.start_at - h0)) :=
          List.range'_append_1 _ _ _
      _ = List.range' h0 (chain.height s.polls + 1 - h0) := by rw [e2]
  · simp only [benchIter, if_neg hn]
    exact ⟨h1, h2⟩

/-- C9: the bench watermark advances only past heights that were
actually fetched — from any state whose fetched list is exactly the
consecutive heights from the recorded starting height `h0` up to the
watermark, the loop returns a state whose fetched list is again exactly
the consecutive heights from `h0` up to the final watermark, with no
duplicates (each height fetched exactly once); and when the node's
current height is below the watermark, the iteration only consumes the
polling tick — watermark, fetched list and count are unchanged. -/
theorem bench_watermark_no_skip :
    (∀ (chain : BenchChain) (s : BenchState),
        chain.height s.polls < s.start_at →
        benchIter chain s = { s with polls := s.polls + 1 }) ∧
    (∀ chain tx_count fuel h0 (s s' : BenchState),
        h0 ≤ s.start_at →
        s.fetched = List.range' h0 (s.start_at - h0) →
        benchLoop chain tx_count fuel s = some s' →
        h0 ≤ s'.start_at ∧
        s'.fetched = List.range' h0 (s'.start_at - h0) ∧
        s'.fetched.Nodup) := by
  constructor
  · intro chain s h
    simp only [benchIter, if_neg (by omega : ¬ s.start_at ≤ chain.height s.polls)]
  · intro chain tx_count fuel h0
    induction fuel with
    | zero => intro s s' _ _ h; simp [benchLoop] at h
    | succ n ih =>
        intro s s' h1 h2 h
        simp only [benchLoop] at h
        by_cases hc : s.finalized_tx < tx_count
        · rw [if_pos hc] at h
          have inv := benchIter_fetch_invariant chain h0 s h1 h2
          exact ih _ _ inv.1 inv.2 h
        · rw [if_neg hc] at h
          cases h
          exact ⟨h1, h2, h2 ▸ List.nodup_range' h0 (s.start_at - h0)⟩

/-- Witness for C9: a chain at height 6 polled from watermark 5 fetches
exactly heights 5 and 6 once each; a chain below the watermark leaves
everything but the poll counter unchanged. -/
theorem bench_watermark_no_skip_witness :
    5 ≤ (BenchState.mk 7 2 1 [5, 6]).start_at ∧
    (BenchState.mk 7 2 1 [5, 6]).fetched = List.range' 5 (7 - 5) ∧
    (BenchState.mk 7 2 1 [5, 6]).fetched.Nodup ∧
    benchIter ⟨fun _ => 3, fun _ => 1⟩ (benchInit 5) =
      { benchInit 5 with polls := 1 } :=
  ⟨(bench_watermark_no_skip.2 ⟨fun _ => 6, fun _ => 1⟩ 2 2 5 (benchInit 5)
      (BenchState.mk 7 2 1 [5, 6]) (by decide) rfl rfl).1,
    (bench_watermark_no_skip.2 ⟨fun _ => 6, fun _ => 1⟩ 2 2 5 (benchInit 5)
      (BenchState.mk 7 2 1 [5, 6]) (by decide) rfl rfl).2.1,
    (bench_watermark_no_skip.2 ⟨fun _ => 6, fun _ => 1⟩ 2 2 5 (benchInit 5)
      (BenchState.mk 7 2 1 [5, 6]) (by decide) rfl rfl).2.2,
    bench_watermark_no_skip.1 ⟨fun _ => 3, fun _ => 1⟩ (benchInit 5)
      (by decide)⟩

/-- C3 counterexample: running the `store-contract-abi` handler with no
current account and the default relative expiration `+95` issues the
`get_block_number` network call BEFORE failing with the signing error —
the no-account check is not performed before every network call. -/
theorem store_abi_network_call_before_account_check :
    store_contract_abi_handler (fun _ => Except.ok [])
      ['a'] ['x'] ['3'] ['+', '9', '5']
      { blockNumberResp := Except.ok 100
        current_account := none
        storeAbiResp := Except.ok [] } =
      ([NetCall.getBlockNumber],
        Except.error "signing error: no current account is set") := rfl

/-- C3 (amended): with no current account set, the
`store-contract-abi` handler does fail with the signing error, but the
check runs only after `valid-until-block` is resolved: with an absolute
expiration no network call precedes the failure, while with a relative
`+h` expiration (the default is `+95`) one `get_block_number` network
call is issued before the failing check. -/
theorem store_abi_no_account_signing_error
    (parse_addr : RStr → Except String Bytes)
    (addr abi quota unt : RStr) (ctx : EvmCtx)
    (hAcc : ctx.current_account = none)
    (a : Bytes) (hA : parse_addr addr = Except.ok a)
    (q : Nat) (hQ : parse_u64 quota = Except.ok q)
    (v : Nat) (hV : parse_u64 (stripPlus unt) = Except.ok v) :
    (startsWithPlus unt = false →
        store_contract_abi_handler parse_addr addr abi quota unt ctx =
          ([], Except.error "signing error: no current account is set")) ∧
    (∀ h, startsWithPlus unt = true → ctx.blockNumberResp = Except.ok h →
        store_contract_abi_handler parse_addr addr abi quota unt ctx =
          ([NetCall.getBlockNumber],
            Except.error "signing error: no current account is set")) := by
  constructor
  · intro hplus
    simp only [store_contract_abi_handler, hA, hQ, hV, hplus,
      EvmCtx.currentAccountOrErr, hAcc, Bool.false_eq_true, if_false]
  · intro h hplus hBn
    simp only [store_contract_abi_handler, hA, hQ, hV, hplus, hBn,
      EvmCtx.currentAccountOrErr, hAcc, if_true]

/-- Witness for the amended C3: with an absolute expiration `95` and no
account, the handler fails with the signing error having issued no
network call. -/
theorem store_abi_no_account_signing_error_witness :
    store_contract_abi_handler (fun _ => Except.ok [])
      ['a'] ['x'] ['3'] ['9', '5']
      { blockNumberResp := Except.ok 100
        current_account := none
        storeAbiResp := Except.ok [] } =
      ([], Except.error "signing error: no current account is set") :=
  (store_abi_no_account_signing_error (fun _ => Except.ok [])
    ['a'] ['x'] ['3'] ['9', '5']
    { blockNumberResp := Except.ok 100
      current_account := none
      storeAbiResp := Except.ok [] }
    rfl [] rfl 3 rfl 95 rfl).1 rfl
